import Mathlib

/-!
Verification of the Call Analytics Insights Platform (CAIP) backend.

Shallow embedding of the repository's data model and operations:
  * `app/models.py`   — Company, CallRecord, CallInsight (SQLAlchemy ORM)
  * `app/api/calls.py`— create_call, list_calls, get_insight endpoints
  * `app/api/reports.py` — get_report, regen_report endpoints
  * `app/tasks.py`    — process_call_record Celery task

The database is a pair of row lists; SQLAlchemy queries become list
filters; unique constraints become explicit membership checks at commit
time; an external failure during a commit is an explicit boolean parameter.
-/

namespace CAIP

/-- Sentiment choices for call insights (`SentimentEnum` in `models.py`). -/
inductive SentimentEnum where
  | Positive
  | Negative
  | Neutral
deriving DecidableEq, Repr

/-- String value of a sentiment, `SentimentEnum.value` in Python. -/
def SentimentEnum.value : SentimentEnum → String
  | .Positive => "Positive"
  | .Negative => "Negative"
  | .Neutral => "Neutral"

/-- One row of the `callrecord` table (`CallRecord` in `models.py`).
Timestamps are modelled as integers; nullable columns are `Option`. -/
structure CallRecord where
  id : Nat
  company_id : Nat
  call_id : String
  caller : Option String
  callee : Option String
  start_time : Option Int
  end_time : Option Int
  duration : Option Int
  recording_file : Option String
  is_processed : Bool
deriving DecidableEq, Repr

/-- One row of the `callinsight` table (`CallInsight` in `models.py`).
`keywords` is the JSON object mapping group labels to keyword lists;
`call_id` is the foreign key to `callrecord.id`, carrying a unique
constraint (1:1). -/
structure CallInsight where
  id : Nat
  call_id : Nat
  transcription : Option String
  sentiment : Option SentimentEnum
  keywords : Option (List (String × List String))
  summary : Option String
  created_at : Int
deriving DecidableEq, Repr

/-- The relational store: the two tables the claims are about. -/
structure DB where
  callrecords : List CallRecord
  callinsights : List CallInsight
deriving DecidableEq, Repr

/-! ### Counters (Python `collections.Counter`)

`Counter` is an insertion-ordered dict from keys to counts.  `update([k])`
increments `k`, appending a fresh key at the end.  `most_common(n)` is
documented as `sorted(items, key=count, reverse=True)[:n]`, a stable sort:
equal counts keep insertion order. -/

/-- Increment key `k` in an insertion-ordered counter. -/
def counterAdd (c : List (String × Nat)) (k : String) : List (String × Nat) :=
  match c with
  | [] => [(k, 1)]
  | (k0, n) :: rest => if k0 = k then (k0, n + 1) :: rest else (k0, n) :: counterAdd rest k

/-- `Counter.update(l)`: increment every element of `l` in order. -/
def counterUpdate (c : List (String × Nat)) (l : List String) : List (String × Nat) :=
  l.foldl counterAdd c

/-- Count recorded for key `k` (0 when absent): the first entry carrying
the key, as `Counter.__getitem__` reads it. -/
def countOf : List (String × Nat) → String → Nat
  | [], _ => 0
  | (k0, n) :: rest, k => if k0 = k then n else countOf rest k

/-- Insert an entry into a count-descending list, before the first entry
whose count it reaches: the stable insertion step of `most_common`. -/
def insertByCount (x : String × Nat) : List (String × Nat) → List (String × Nat)
  | [] => [x]
  | y :: ys => if y.2 ≤ x.2 then x :: y :: ys else y :: insertByCount x ys

/-- Stable sort by count, descending — the order `Counter.most_common`
returns entries in. -/
def sortByCountDesc : List (String × Nat) → List (String × Nat)
  | [] => []
  | x :: xs => insertByCount x (sortByCountDesc xs)

/-- The distinct elements of a list in order of first occurrence. -/
def firstOccsAux (seen : List String) : List String → List String
  | [] => []
  | k :: rest => if k ∈ seen then firstOccsAux seen rest else k :: firstOccsAux (k :: seen) rest

/-- Distinct elements in first-encounter order. -/
def firstOccs (l : List String) : List String := firstOccsAux [] l

/-! ### `app/api/calls.py` — list_calls -/

/-- The optional WHERE clauses of `list_calls`, conjunctively.  A SQL
comparison against a NULL column is not true, so a row with a NULL
`start_time` (resp. `duration`) fails any date (resp. duration) bound. -/
def optionalFilters (from_date to_date : Option Int)
    (duration_gt duration_lt : Option Int) (r : CallRecord) : Bool :=
  (match from_date with
      | none => true
      | some d => match r.start_time with | none => false | some t => d ≤ t)
  && (match to_date with
      | none => true
      | some d => match r.start_time with | none => false | some t => t ≤ d)
  && (match duration_gt with
      | none => true
      | some g => match r.duration with | none => false | some du => g ≤ du)
  && (match duration_lt with
      | none => true
      | some l => match r.duration with | none => false | some du => du ≤ l)

/-- The full WHERE clause built by `list_calls`: the company scope plus
the optional filters. -/
def listCallsPred (cid : Nat) (from_date to_date : Option Int)
    (duration_gt duration_lt : Option Int) (r : CallRecord) : Bool :=
  r.company_id == cid && optionalFilters from_date to_date duration_gt duration_lt r

/-- `GET /api/calls/` (`list_calls` in `calls.py`): filter the company's
rows, then apply `offset` and `limit`.  The `sentiment` query parameter is
declared in the signature but never referenced in the query. -/
def list_calls (db : DB) (cid : Nat) (from_date to_date : Option Int)
    (sentiment : Option String) (duration_gt duration_lt : Option Int)
    (limit offset : Nat) : List CallRecord :=
  ((db.callrecords.filter
    (fun r => listCallsPred cid from_date to_date duration_gt duration_lt r)).drop
    offset).take limit

/-- The `limit` query parameter declaration `Query(20, ge=1, le=200)`:
absent means the default 20; a supplied value outside `[1, 200]` is
rejected by validation (HTTP 422), not coerced. -/
def limit_param (limit : Option Int) : Except Unit Int :=
  match limit with
  | none => .ok 20
  | some l => if 1 ≤ l && l ≤ 200 then .ok l else .error ()

/-- What clamping the limit into `[1, 200]` would compute (the spec's
wording), for comparison with `limit_param`. -/
def limit_clamped (limit : Option Int) : Except Unit Int :=
  match limit with
  | none => .ok 20
  | some l => .ok (max 1 (min 200 l))

/-! ### `app/api/calls.py` — get_insight -/

/-- Outcome of `GET /api/calls/{call_id}/insight`. -/
inductive InsightResult where
  | notFound
  | notReady
  | insightMissing
  | ok (ins : CallInsight)
deriving DecidableEq, Repr

/-- HTTP status surfaced for each outcome of `get_insight`. -/
def InsightResult.status : InsightResult → Nat
  | .notFound => 404
  | .notReady => 404
  | .insightMissing => 404
  | .ok _ => 200

/-- Whether the outcome is logged at error severity
(`logger.error` — only the processed-but-missing-insight case). -/
def InsightResult.loggedAtErrorSeverity : InsightResult → Bool
  | .insightMissing => true
  | _ => false

/-- `get_insight` in `calls.py`: look the call up by company and external
call identifier, then report not-found / not-ready / missing-insight, or
return the insight row. -/
def get_insight (db : DB) (cid : Nat) (call_id : String) : InsightResult :=
  match db.callrecords.find? (fun r => r.company_id == cid && r.call_id == call_id) with
  | none => .notFound
  | some cr =>
    if !cr.is_processed then .notReady
    else
      match db.callinsights.find? (fun i => i.call_id == cr.id) with
      | none => .insightMissing
      | some ins => .ok ins

/-! ### `app/api/calls.py` — create_call -/

/-- Response of `POST /api/calls/`: either 201 with
`{id, call_id, is_processed}`, or a 500 internal error (the commit's
unique-constraint violation is caught by the outer handler). -/
inductive CreateResult where
  | created (id : Nat) (call_id : String) (is_processed : Bool)
  | internalError
deriving DecidableEq, Repr

/-- HTTP status of a `create_call` response. -/
def CreateResult.status : CreateResult → Nat
  | .created _ _ _ => 201
  | .internalError => 500

/-- Commit of `db.add(cr)` in `create_call`: the `unique=True` constraint
on `callrecord.call_id` makes the INSERT fail whenever any existing row —
of any company — already carries the identifier. -/
def insertCallRecord (db : DB) (r : CallRecord) : Option DB :=
  if db.callrecords.any (fun r0 => r0.call_id == r.call_id) then none
  else some { db with callrecords := db.callrecords ++ [r] }

/-- The metadata of an ingestion request (`CallCreate` in `schemas.py`). -/
structure CallCreate where
  call_id : String
  caller : Option String
  callee : Option String
  start_time : Option Int
  end_time : Option Int
  duration : Option Int
deriving DecidableEq, Repr

/-- The `CallRecord(...)` constructed by `create_call`: metadata fields,
the saved recording path, and `is_processed=False`. -/
def newCallRecord (cid : Nat) (meta : CallCreate) (savedPath : String)
    (newId : Nat) : CallRecord :=
  { id := newId
    company_id := cid
    call_id := meta.call_id
    caller := meta.caller
    callee := meta.callee
    start_time := meta.start_time
    end_time := meta.end_time
    duration := meta.duration
    recording_file := some savedPath
    is_processed := false }

/-- `create_call` in `calls.py`.  `savedPath` is the path returned by
`save_upload_file`, `newId` the primary key the insert assigns, and
`enqueueOk` whether `celery_process_call.delay` succeeds.  Returns the
new database, the HTTP response, and whether a processing job was
enqueued: an enqueue failure is logged and swallowed, so it shows up only
in the last component. -/
def create_call (db : DB) (cid : Nat) (meta : CallCreate) (savedPath : String)
    (newId : Nat) (enqueueOk : Bool) : DB × CreateResult × Bool :=
  let cr := newCallRecord cid meta savedPath newId
  match insertCallRecord db cr with
  | none => (db, .internalError, false)
  | some db1 => (db1, .created cr.id cr.call_id cr.is_processed, enqueueOk)

/-! ### `app/api/reports.py` — regen_report -/

/-- Response of `POST /api/reports/`. -/
inductive RegenResult where
  | okStarted
  | forbidden
deriving DecidableEq, Repr

/-- HTTP status of a `regen_report` response. -/
def RegenResult.status : RegenResult → Nat
  | .okStarted => 200
  | .forbidden => 403

/-- `regen_report` in `reports.py`: reject companies without the
permission flag; otherwise attempt the enqueue, logging and swallowing
any enqueue failure, and answer `{ok: true}` either way.  The second
component records whether a job actually reached the queue. -/
def regen_report (can_regen_reports : Bool) (enqueueOk : Bool) : RegenResult × Bool :=
  if !can_regen_reports then (.forbidden, false)
  else (.okStarted, enqueueOk)

/-! ### `app/tasks.py` — process_call_record -/

/-- Outcome of the `process_call_record` Celery task: the record was
absent (the task returns an error dict and is not retried), processing
succeeded, or an exception was raised after rollback (propagating to the
queue's retry handling). -/
inductive TaskResult where
  | notFound
  | ok
  | raised
deriving DecidableEq, Repr

/-- The simulated insight built by `process_call_record` for record `cr`:
fixed transcription/keywords/summary, a randomly chosen sentiment
(passed in as `sent`), and the current time `now`. -/
def simulatedInsight (newInsightId : Nat) (cr : CallRecord) (sent : SentimentEnum)
    (now : Int) : CallInsight :=
  { id := newInsightId
    call_id := cr.id
    transcription := some ("Simulated transcription for " ++ cr.call_id)
    sentiment := some sent
    keywords := some [("topics", ["support", "billing", "upgrade"])]
    summary := some "Simulated summary of the call."
    created_at := now }

/-- `process_call_record` in `tasks.py`: load the record by primary key
(absent → terminal no-op); otherwise add a fresh `CallInsight`, set
`is_processed = true`, and commit both in one transaction.  The commit
fails — rolling back fully and re-raising — when `commitFails` is set
(any external failure) or when the unique constraint on
`callinsight.call_id` is violated by an existing insight row.  The task
never consults `is_processed` before inserting. -/
def process_call_record (db : DB) (call_record_id : Nat) (sent : SentimentEnum)
    (now : Int) (commitFails : Bool) : DB × TaskResult :=
  match db.callrecords.find? (fun r => r.id == call_record_id) with
  | none => (db, .notFound)
  | some cr =>
    if commitFails || db.callinsights.any (fun i => i.call_id == cr.id) then
      (db, .raised)
    else
      ({ callrecords :=
           db.callrecords.map (fun r => if r.id == call_record_id then { r with is_processed := true } else r)
         callinsights := db.callinsights ++ [simulatedInsight (db.callinsights.length + 1) cr sent now] },
       .ok)

/-! ### `app/api/reports.py` — get_report -/

/-- The aggregated report returned by `GET /api/reports/`.  `avg_duration`
(a Python float division) is modelled as a rational. -/
structure Report where
  total_calls : Nat
  avg_duration : ℚ
  sentiment_distribution : List (String × Nat)
  top_keywords : List String
deriving DecidableEq, Repr

/-- The per-call insight lookup of the report loop:
`select(CallInsight).where(CallInsight.call_id == c.id)`, first row. -/
def insightFor (insights : List CallInsight) (c : CallRecord) : Option CallInsight :=
  insights.find? (fun i => i.call_id == c.id)

/-- `ins.sentiment.value if ins.sentiment else 'Unknown'`. -/
def sentimentLabel (ins : CallInsight) : String :=
  match ins.sentiment with
  | some s => s.value
  | none => "Unknown"

/-- The sentiment labels the loop feeds `sentiments.update`, in call
order; a processed call with no insight row contributes nothing. -/
def sentimentStream (insights : List CallInsight) (calls : List CallRecord) : List String :=
  calls.filterMap (fun c => (insightFor insights c).map sentimentLabel)

/-- All keyword occurrences of one insight: every value list of the
keyword-group mapping, concatenated in order. -/
def insightKeywords (ins : CallInsight) : List String :=
  match ins.keywords with
  | none => []
  | some groups => (groups.map Prod.snd).flatten

/-- The keyword occurrences the loop feeds `keywords.update`, across all
keyword-group value lists of all the calls, in order. -/
def keywordStream (insights : List CallInsight) (calls : List CallRecord) : List String :=
  (calls.map (fun c =>
    match insightFor insights c with
    | none => []
    | some ins => insightKeywords ins)).flatten

/-- Build a `Counter` from a stream of occurrences. -/
def streamCounts (s : List String) : List (String × Nat) :=
  s.foldl counterAdd []

/-- `[k for k, _ in counter.most_common(5)]`. -/
def topKeywords (kw : List (String × Nat)) : List String :=
  ((sortByCountDesc kw).take 5).map Prod.fst

/-- `get_report` in `reports.py`: aggregate the company's processed calls
into totals, mean duration (`0` when there are none, absent durations
counted as `0`), the sentiment distribution, and the top five keywords. -/
def get_report (db : DB) (cid : Nat) : Report :=
  let calls := db.callrecords.filter (fun c => c.company_id == cid && c.is_processed)
  let total := calls.length
  let sumDur : Int := (calls.map (fun c => c.duration.getD 0)).sum
  { total_calls := total
    avg_duration := if total = 0 then 0 else (sumDur : ℚ) / (total : ℚ)
    sentiment_distribution := streamCounts (sentimentStream db.callinsights calls)
    top_keywords := topKeywords (streamCounts (keywordStream db.callinsights calls)) }

/-! ### Concrete sample states used to evaluate the theorems -/

/-- A freshly ingested, unprocessed call record of company 1. -/
def sampleRecord : CallRecord :=
  { id := 1
    company_id := 1
    call_id := "call-1"
    caller := some "alice"
    callee := some "bob"
    start_time := some 100
    end_time := some 160
    duration := some 60
    recording_file := some "media/1/rec.wav"
    is_processed := false }

/-- A database holding just `sampleRecord`, not yet processed. -/
def sampleDB : DB := { callrecords := [sampleRecord], callinsights := [] }

/-- `sampleRecord` after processing, flag set. -/
def sampleRecordProcessed : CallRecord := { sampleRecord with is_processed := true }

/-- An insight row for `sampleRecord`. -/
def sampleInsight : CallInsight :=
  { id := 1
    call_id := 1
    transcription := some "Simulated transcription for call-1"
    sentiment := some .Positive
    keywords := some [("topics", ["support", "billing", "upgrade"])]
    summary := some "Simulated summary of the call."
    created_at := 0 }

/-- Processed record but no insight row: the integrity-error state. -/
def sampleDBMissingInsight : DB :=
  { callrecords := [sampleRecordProcessed], callinsights := [] }

/-- Fully processed state: record flagged and insight present. -/
def sampleDBProcessed : DB :=
  { callrecords := [sampleRecordProcessed], callinsights := [sampleInsight] }

/-- A call record owned by a different company (company 2). -/
def otherTenantRecord : CallRecord :=
  { id := 7
    company_id := 2
    call_id := "call-7"
    caller := some "alice"
    callee := some "bob"
    start_time := some 100
    end_time := some 160
    duration := some 60
    recording_file := some "media/2/rec.wav"
    is_processed := true }

/-- `sampleDBProcessed` with an extra record of company 2 interleaved. -/
def sampleDBTwoTenants : DB :=
  { callrecords := [otherTenantRecord, sampleRecordProcessed]
    callinsights := [sampleInsight] }

/-- Metadata of a fresh ingestion request. -/
def sampleMeta : CallCreate :=
  { call_id := "call-2"
    caller := some "carol"
    callee := some "dan"
    start_time := some 200
    end_time := some 290
    duration := some 90 }

/-- Metadata reusing the identifier already taken by `sampleRecord`. -/
def dupMeta : CallCreate := { sampleMeta with call_id := "call-1" }

/-! ## Helper lemmas -/

/-- Splitting the company scope off a conjunctive WHERE clause. -/
theorem filter_scoped (l : List CallRecord) (cid : Nat) (q : CallRecord → Bool) :
    l.filter (fun c => c.company_id == cid && q c) =
      (l.filter (fun c => c.company_id == cid)).filter q := by
  rw [List.filter_filter]
  exact List.filter_congr fun c _ => Bool.and_comm _ _

/-- `counterAdd` keeps existing keys in place and appends a fresh key. -/
theorem counterAdd_keys (c : List (String × Nat)) (k : String) :
    (counterAdd c k).map Prod.fst =
      if k ∈ c.map Prod.fst then c.map Prod.fst else c.map Prod.fst ++ [k] := by
  induction c with
  | nil => simp [counterAdd]
  | cons hd tl ih =>
    by_cases h : hd.1 = k
    · simp [counterAdd, h]
    · simp only [counterAdd, if_neg h, List.map_cons, ih, List.mem_cons]
      by_cases h2 : k ∈ tl.map Prod.fst
      · rw [if_pos h2, if_pos (Or.inr h2)]
      · rw [if_neg h2, if_neg (by rintro (h3 | h3); exact h (h3.symm); exact h2 h3)]
        simp

/-- `firstOccsAux` only looks at membership in `seen`. -/
theorem firstOccsAux_congr (seen1 seen2 : List String)
    (h : ∀ a, a ∈ seen1 ↔ a ∈ seen2) (s : List String) :
    firstOccsAux seen1 s = firstOccsAux seen2 s := by
  induction s generalizing seen1 seen2 with
  | nil => rfl
  | cons k rest ih =>
    simp only [firstOccsAux]
    by_cases hk : k ∈ seen1
    · rw [if_pos hk, if_pos ((h k).mp hk)]
      exact ih seen1 seen2 h
    · rw [if_neg hk, if_neg (fun c => hk ((h k).mpr c))]
      refine congrArg (k :: ·) (ih (k :: seen1) (k :: seen2) ?_)
      intro a
      simp [h a]

/-- Folding `counterAdd` appends exactly the unseen keys, in
first-encounter order. -/
theorem foldl_counterAdd_keys (s : List String) (c : List (String × Nat)) :
    (s.foldl counterAdd c).map Prod.fst =
      c.map Prod.fst ++ firstOccsAux (c.map Prod.fst) s := by
  induction s generalizing c with
  | nil => simp [firstOccsAux]
  | cons k rest ih =>
    simp only [List.foldl_cons, firstOccsAux]
    rw [ih (counterAdd c k), counterAdd_keys]
    by_cases hk : k ∈ c.map Prod.fst
    · rw [if_pos hk, if_pos hk]
    · rw [if_neg hk, if_neg hk,
        firstOccsAux_congr (c.map Prod.fst ++ [k]) (k :: c.map Prod.fst) (by intro a; simp [or_comm]) rest]
      simp

/-- Counter keys appear in order of first encounter in the stream. -/
theorem streamCounts_keys (s : List String) :
    (streamCounts s).map Prod.fst = firstOccs s := by
  simpa [streamCounts, firstOccs] using foldl_counterAdd_keys s []

/-- Count read-back after one `counterAdd`. -/
theorem countOf_counterAdd (c : List (String × Nat)) (k k' : String) :
    countOf (counterAdd c k) k' = countOf c k' + if k' = k then 1 else 0 := by
  induction c with
  | nil =>
    simp only [counterAdd, countOf]
    by_cases h : k = k'
    · rw [if_pos h, if_pos h.symm]
    · rw [if_neg h, if_neg (fun h2 => h h2.symm)]
  | cons hd tl ih =>
    obtain ⟨k0, n⟩ := hd
    simp only [counterAdd]
    by_cases h : k0 = k
    · rw [if_pos h]
      simp only [countOf]
      by_cases h2 : k0 = k'
      · have h3 : k' = k := by rw [← h2, h]
        rw [if_pos h2, if_pos h2, if_pos h3]
      · have h3 : ¬ k' = k := fun c => h2 (by rw [h, ← c])
        rw [if_neg h2, if_neg h2, if_neg h3, Nat.add_zero]
    · rw [if_neg h]
      simp only [countOf]
      by_cases h2 : k0 = k'
      · have h3 : ¬ k' = k := fun c => h (h2.trans c)
        rw [if_pos h2, if_pos h2, if_neg h3, Nat.add_zero]
      · rw [if_neg h2, if_neg h2, ih]

/-- Count read-back after folding a whole stream. -/
theorem countOf_foldl (s : List String) (c : List (String × Nat)) (k : String) :
    countOf (s.foldl counterAdd c) k = countOf c k + s.count k := by
  induction s generalizing c with
  | nil => simp
  | cons a rest ih =>
    simp only [List.foldl_cons, List.count_cons]
    rw [ih, countOf_counterAdd]
    by_cases h : k = a
    · simp [h]
      omega
    · simp [h, beq_iff_eq]
      exact fun c => h c.symm

/-- The counter records exactly the occurrence counts of the stream. -/
theorem countOf_streamCounts (s : List String) (k : String) :
    countOf (streamCounts s) k = s.count k := by
  simpa [streamCounts, countOf] using countOf_foldl s [] k

/-- Members of an insertion are the new entry or old members. -/
theorem mem_insertByCount {x y : String × Nat} {l : List (String × Nat)}
    (h : y ∈ insertByCount x l) : y = x ∨ y ∈ l := by
  induction l with
  | nil => simpa [insertByCount] using h
  | cons hd tl ih =>
    simp only [insertByCount] at h
    split at h
    · rcases List.mem_cons.mp h with h | h
      · exact Or.inl h
      · exact Or.inr h
    · rcases List.mem_cons.mp h with h | h
      · exact Or.inr (h ▸ List.mem_cons_self hd tl)
      · rcases ih h with h | h
        · exact Or.inl h
        · exact Or.inr (List.mem_cons_of_mem hd h)

/-- Insertion preserves the count-descending order. -/
theorem pairwise_insertByCount (x : String × Nat) (l : List (String × Nat))
    (h : l.Pairwise (fun a b => b.2 ≤ a.2)) :
    (insertByCount x l).Pairwise (fun a b => b.2 ≤ a.2) := by
  induction l with
  | nil => simp [insertByCount]
  | cons hd tl ih =>
    rw [List.pairwise_cons] at h
    obtain ⟨hhd, htl⟩ := h
    simp only [insertByCount]
    split
    · rename_i hle
      rw [List.pairwise_cons]
      refine ⟨?_, List.pairwise_cons.mpr ⟨hhd, htl⟩⟩
      intro z hz
      rcases List.mem_cons.mp hz with rfl | hz
      · exact hle
      · exact le_trans (hhd z hz) hle
    · rename_i hgt
      rw [List.pairwise_cons]
      refine ⟨?_, ih htl⟩
      intro z hz
      rcases mem_insertByCount hz with rfl | hz
      · exact le_of_lt (lt_of_not_le hgt)
      · exact hhd z hz

/-- `sortByCountDesc` sorts by count, descending. -/
theorem sortByCountDesc_pairwise (l : List (String × Nat)) :
    (sortByCountDesc l).Pairwise (fun a b => b.2 ≤ a.2) := by
  induction l with
  | nil => simp [sortByCountDesc]
  | cons x xs ih => exact pairwise_insertByCount x _ ih

/-- Stability of the insertion step: restricting to any one count value,
the inserted entry lands in front and nothing else moves. -/
theorem filter_insertByCount (x : String × Nat) (l : List (String × Nat)) (n : Nat) :
    (insertByCount x l).filter (fun p => p.2 == n) =
      if x.2 = n then x :: l.filter (fun p => p.2 == n)
      else l.filter (fun p => p.2 == n) := by
  induction l with
  | nil => by_cases h : x.2 = n <;> simp [insertByCount, h]
  | cons hd tl ih =>
    simp only [insertByCount]
    split
    · rename_i hle
      by_cases h : x.2 = n <;> simp [List.filter_cons, h]
    · rename_i hgt
      by_cases h : x.2 = n
      · have hhd : ¬ hd.2 = n := by
          intro h2
          exact hgt (le_of_eq (h2.trans h.symm))
        simp [List.filter_cons, ih, h, hhd]
      · by_cases h2 : hd.2 = n <;> simp [List.filter_cons, ih, h, h2]

/-- Stability of the sort: within each count class the original
(first-encounter) order is preserved. -/
theorem filter_sortByCountDesc (l : List (String × Nat)) (n : Nat) :
    (sortByCountDesc l).filter (fun p => p.2 == n) = l.filter (fun p => p.2 == n) := by
  induction l with
  | nil => rfl
  | cons x xs ih =>
    simp only [sortByCountDesc]
    rw [filter_insertByCount, List.filter_cons]
    by_cases h : x.2 = n <;> simp [h, ih]

/-! ## Claims -/

/-- Claim C10: two `list_calls` requests by the same tenant against the
same database state that differ only in the `sentiment` query parameter
return identical responses — the parameter is accepted at the interface
but never used to filter. -/
theorem listCalls_ignores_sentiment (db : DB) (cid : Nat)
    (from_date to_date : Option Int) (s1 s2 : Option String)
    (duration_gt duration_lt : Option Int) (limit offset : Nat) :
    list_calls db cid from_date to_date s1 duration_gt duration_lt limit offset =
      list_calls db cid from_date to_date s2 duration_gt duration_lt limit offset := rfl

/-- Claim C4 counterexample: a requested limit of 500 is rejected by the
`Query(20, ge=1, le=200)` validation (HTTP 422), not coerced into range:
`limit_param` disagrees with the clamping reading at 500. -/
theorem limit_not_clamped_at_500 :
    limit_param (some 500) = .error () ∧ limit_clamped (some 500) = .ok 200 ∧
      limit_param (some 500) ≠ limit_clamped (some 500) := by
  refine ⟨rfl, rfl, ?_⟩
  intro h
  exact Except.noConfusion h

/-- Claim C4 (amended): an absent limit defaults to 20; a supplied limit
in `[1, 200]` is accepted unchanged; a supplied limit outside `[1, 200]`
is rejected with a validation error rather than coerced. -/
theorem limit_param_spec :
    limit_param none = .ok 20 ∧
      (∀ l : Int, 1 ≤ l → l ≤ 200 → limit_param (some l) = .ok l) ∧
      (∀ l : Int, l < 1 ∨ 200 < l → limit_param (some l) = .error ()) := by
  refine ⟨rfl, ?_, ?_⟩
  · intro l h1 h2
    simp [limit_param, h1, h2]
  · intro l h
    rcases h with h | h <;> simp [limit_param] <;> omega

/-- Witness for C4's amended claim at limits 50 and 500. -/
theorem limit_param_spec_witness :
    limit_param (some 50) = .ok 50 ∧ limit_param (some 500) = .error () :=
  ⟨limit_param_spec.2.1 50 (by norm_num) (by norm_num),
   limit_param_spec.2.2 500 (Or.inr (by norm_num))⟩

/-- Claim C3 counterexample: on the report-regeneration path an
enqueue-time failure is also swallowed — the request still answers
HTTP 200 `{ok: true}` with no job enqueued, instead of failing. -/
theorem regen_swallows_enqueue_failure :
    (regen_report true false).1 = .okStarted ∧
      ((regen_report true false).1).status = 200 ∧
      (regen_report true false).2 = false :=
  ⟨rfl, rfl, rfl⟩

/-- Claim C3 (amended): enqueue-time failures are swallowed (logged only,
request still succeeding) on both request paths that enqueue a job — the
ingestion path and the report-regeneration path: neither the stored
state nor the response depends on whether the enqueue succeeded. -/
theorem enqueue_failures_swallowed_on_both_paths
    (db : DB) (cid : Nat) (meta : CallCreate) (savedPath : String) (newId : Nat) :
    ((create_call db cid meta savedPath newId false).1 =
        (create_call db cid meta savedPath newId true).1 ∧
      (create_call db cid meta savedPath newId false).2.1 =
        (create_call db cid meta savedPath newId true).2.1) ∧
      ∀ can : Bool, (regen_report can false).1 = (regen_report can true).1 := by
  refine ⟨?_, ?_⟩
  · cases h : insertCallRecord db (newCallRecord cid meta savedPath newId) <;>
      simp [create_call, h]
  · intro can
    cases can <;> rfl

/-- Claim C8: a valid ingestion request (fresh identifier) succeeds with
`is_processed = false` in both the response and the stored record, and
this holds regardless of queue availability: an enqueue failure neither
fails the request, nor changes the returned value, nor alters the stored
record. -/
theorem createCall_success_independent_of_queue
    (db : DB) (cid : Nat) (meta : CallCreate) (savedPath : String) (newId : Nat)
    (e : Bool) (hfresh : ∀ r ∈ db.callrecords, r.call_id ≠ meta.call_id) :
    (create_call db cid meta savedPath newId e).1 =
        { db with callrecords := db.callrecords ++ [newCallRecord cid meta savedPath newId] } ∧
      (newCallRecord cid meta savedPath newId).is_processed = false ∧
      (create_call db cid meta savedPath newId e).2.1 =
        .created newId meta.call_id false ∧
      (create_call db cid meta savedPath newId e).1 =
        (create_call db cid meta savedPath newId true).1 ∧
      (create_call db cid meta savedPath newId e).2.1 =
        (create_call db cid meta savedPath newId true).2.1 := by
  have hany : db.callrecords.any
      (fun r0 => r0.call_id == (newCallRecord cid meta savedPath newId).call_id) = false := by
    rw [List.any_eq_false]
    intro r hr
    simpa [newCallRecord] using hfresh r hr
  have hins : insertCallRecord db (newCallRecord cid meta savedPath newId) =
      some { db with callrecords := db.callrecords ++ [newCallRecord cid meta savedPath newId] } := by
    simp [insertCallRecord, hany]
  refine ⟨?_, rfl, ?_, ?_, ?_⟩ <;> simp [create_call, hins] <;> exact ⟨rfl, rfl, rfl⟩

/-- Witness for C8 on `sampleDB` with fresh identifier "call-2". -/
theorem createCall_success_witness :
    (create_call sampleDB 1 sampleMeta "media/1/r2.wav" 2 false).2.1 =
      .created 2 "call-2" false :=
  (createCall_success_independent_of_queue sampleDB 1 sampleMeta "media/1/r2.wav" 2 false
    (by decide)).2.2.1

/-- Claim C7: the call identifier is globally unique: `create_call`
preserves system-wide uniqueness of `call_id`, and a second ingestion of
an identifier already present — whichever company owns it — fails with
the internal-error response and leaves the database unchanged, never
overwriting or duplicating. -/
theorem createCall_call_id_unique
    (db : DB) (cid : Nat) (meta : CallCreate) (savedPath : String) (newId : Nat) (e : Bool) :
    ((db.callrecords.map CallRecord.call_id).Nodup →
        ((create_call db cid meta savedPath newId e).1.callrecords.map CallRecord.call_id).Nodup) ∧
      ∀ r ∈ db.callrecords, r.call_id = meta.call_id →
        create_call db cid meta savedPath newId e = (db, .internalError, false) := by
  by_cases hany : db.callrecords.any
      (fun r0 => r0.call_id == (newCallRecord cid meta savedPath newId).call_id) = true
  · have hins : insertCallRecord db (newCallRecord cid meta savedPath newId) = none := by
      simp [insertCallRecord, hany]
    constructor
    · intro h
      simpa [create_call, hins] using h
    · intro r hr hid
      simp [create_call, hins]
  · rw [Bool.not_eq_true] at hany
    have hins : insertCallRecord db (newCallRecord cid meta savedPath newId) =
        some { db with callrecords := db.callrecords ++ [newCallRecord cid meta savedPath newId] } := by
      simp [insertCallRecord, hany]
    rw [List.any_eq_false] at hany
    constructor
    · intro h
      have hnotmem : meta.call_id ∉ db.callrecords.map CallRecord.call_id := by
        rw [List.mem_map]
        rintro ⟨r, hr, hid⟩
        have h2 := hany r hr
        simp only [newCallRecord, beq_iff_eq] at h2
        exact h2 hid
      simp only [create_call, hins, List.map_append]
      rw [List.nodup_append]
      refine ⟨h, List.nodup_singleton _, ?_⟩
      intro a ha hb
      simp only [List.map_cons, List.map_nil, List.mem_singleton, newCallRecord] at hb
      rw [hb] at ha
      exact hnotmem ha
    · intro r hr hid
      have h2 := hany r hr
      simp only [newCallRecord, beq_iff_eq] at h2
      exact absurd hid h2

/-- Witness for C7 on `sampleDB` with the duplicate identifier "call-1". -/
theorem createCall_call_id_unique_witness :
    ((create_call sampleDB 1 dupMeta "media/1/r3.wav" 3 true).1.callrecords.map
        CallRecord.call_id).Nodup ∧
      create_call sampleDB 1 dupMeta "media/1/r3.wav" 3 true =
        (sampleDB, .internalError, false) :=
  ⟨(createCall_call_id_unique sampleDB 1 dupMeta "media/1/r3.wav" 3 true).1 (by decide),
   (createCall_call_id_unique sampleDB 1 dupMeta "media/1/r3.wav" 3 true).2 sampleRecord
     (by decide) rfl⟩

/-- Claim C2: when a failure occurs while persisting the insight together
with the processed flag, the transaction rolls back fully — the database
is unchanged, so the record still has no insight row and its flag is
still false — and the error is re-raised to the queue. -/
theorem process_rollback_on_failure
    (db : DB) (rid : Nat) (sent : SentimentEnum) (now : Int) (cr : CallRecord)
    (hfind : db.callrecords.find? (fun r => r.id == rid) = some cr)
    (hnoins : db.callinsights.countP (fun i => i.call_id == cr.id) = 0)
    (hflag : ∀ r ∈ db.callrecords, r.id = rid → r.is_processed = false) :
    process_call_record db rid sent now true = (db, .raised) ∧
      (process_call_record db rid sent now true).1.callinsights.countP
        (fun i => i.call_id == cr.id) = 0 ∧
      ∀ r ∈ (process_call_record db rid sent now true).1.callrecords,
        r.id = rid → r.is_processed = false := by
  have h1 : process_call_record db rid sent now true = (db, .raised) := by
    simp [process_call_record, hfind]
  exact ⟨h1, by rw [h1]; exact hnoins, by rw [h1]; exact hflag⟩

/-- Witness for C2 on `sampleDB` with a failing commit. -/
theorem process_rollback_witness :
    process_call_record sampleDB 1 .Positive 0 true = (sampleDB, .raised) :=
  (process_rollback_on_failure sampleDB 1 .Positive 0 sampleRecord (by decide) rfl
    (by decide)).1

/-- Claim C6: `get_insight` has exactly three failure outcomes, all
surfaced as HTTP 404: no call for this tenant and identifier → not-found;
call exists but unprocessed → the distinct not-ready outcome; processed
but insight row missing → the integrity-error outcome, the only one
logged at error severity; otherwise it returns the insight row.  The
status is 404 exactly on the failure outcomes. -/
theorem getInsight_outcomes (db : DB) (cid : Nat) (callId : String) :
    (db.callrecords.find? (fun r => r.company_id == cid && r.call_id == callId) = none →
        get_insight db cid callId = .notFound) ∧
      (∀ cr, db.callrecords.find? (fun r => r.company_id == cid && r.call_id == callId) = some cr →
        cr.is_processed = false → get_insight db cid callId = .notReady) ∧
      (∀ cr, db.callrecords.find? (fun r => r.company_id == cid && r.call_id == callId) = some cr →
        cr.is_processed = true →
        db.callinsights.find? (fun i => i.call_id == cr.id) = none →
        get_insight db cid callId = .insightMissing) ∧
      (∀ cr ins, db.callrecords.find? (fun r => r.company_id == cid && r.call_id == callId) = some cr →
        cr.is_processed = true →
        db.callinsights.find? (fun i => i.call_id == cr.id) = some ins →
        get_insight db cid callId = .ok ins) ∧
      ((get_insight db cid callId).status = 404 ↔
        ∀ ins, get_insight db cid callId ≠ .ok ins) ∧
      InsightResult.loggedAtErrorSeverity .insightMissing = true ∧
      InsightResult.loggedAtErrorSeverity .notFound = false ∧
      InsightResult.loggedAtErrorSeverity .notReady = false := by
  refine ⟨?_, ?_, ?_, ?_, ?_, rfl, rfl, rfl⟩
  · intro h
    simp [get_insight, h]
  · intro cr hfind hproc
    simp [get_insight, hfind, hproc]
  · intro cr hfind hproc hins
    simp [get_insight, hfind, hproc, hins]
  · intro cr ins hfind hproc hins
    simp [get_insight, hfind, hproc, hins]
  · cases hres : get_insight db cid callId with
    | ok ins0 =>
      simp only [hres, InsightResult.status]
      constructor
      · intro h
        omega
      · intro h
        exact absurd rfl (h ins0)
    | notFound => simp [hres, InsightResult.status]
    | notReady => simp [hres, InsightResult.status]
    | insightMissing => simp [hres, InsightResult.status]

/-- Witness for C6: the four outcomes realized on concrete states. -/
theorem getInsight_outcomes_witness :
    get_insight sampleDB 2 "call-1" = .notFound ∧
      get_insight sampleDB 1 "call-1" = .notReady ∧
      get_insight sampleDBMissingInsight 1 "call-1" = .insightMissing ∧
      get_insight sampleDBProcessed 1 "call-1" = .ok sampleInsight :=
  ⟨(getInsight_outcomes sampleDB 2 "call-1").1 (by decide),
   (getInsight_outcomes sampleDB 1 "call-1").2.1 sampleRecord (by decide) rfl,
   (getInsight_outcomes sampleDBMissingInsight 1 "call-1").2.2.1 sampleRecordProcessed
     (by decide) rfl rfl,
   (getInsight_outcomes sampleDBProcessed 1 "call-1").2.2.2.1 sampleRecordProcessed
     sampleInsight (by decide) rfl (by decide)⟩

/-- Claim C5: `list_calls` and `get_report` are tenant-isolated: for any
two database states agreeing on the authenticated tenant's call records
(and on the insight table), every filter combination lists the same rows
and computes the same report — records of other tenants never affect the
output — and every listed row belongs to the tenant. -/
theorem tenant_isolation (db1 db2 : DB) (cid : Nat) (fd td : Option Int)
    (s : Option String) (dg dl : Option Int) (lim off : Nat)
    (hrec : db1.callrecords.filter (fun r => r.company_id == cid) =
      db2.callrecords.filter (fun r => r.company_id == cid))
    (hins : db1.callinsights = db2.callinsights) :
    list_calls db1 cid fd td s dg dl lim off = list_calls db2 cid fd td s dg dl lim off ∧
      get_report db1 cid = get_report db2 cid ∧
      (list_calls db1 cid fd td s dg dl lim off).all (fun r => r.company_id == cid) = true := by
  have hl : list_calls db1 cid fd td s dg dl lim off =
      list_calls db2 cid fd td s dg dl lim off := by
    simp only [list_calls, listCallsPred]
    rw [filter_scoped, filter_scoped, hrec]
  have hg : get_report db1 cid = get_report db2 cid := by
    simp only [get_report]
    rw [filter_scoped, filter_scoped, hrec, hins]
  refine ⟨hl, hg, ?_⟩
  rw [List.all_eq_true]
  intro r hr
  simp only [list_calls] at hr
  have hr2 := List.drop_subset _ _ (List.take_subset _ _ hr)
  have hp := (List.mem_filter.mp hr2).2
  simp only [listCallsPred, Bool.and_eq_true] at hp
  exact hp.1

/-- Witness for C5: removing company 2's record from the state changes
neither company 1's listing nor company 1's report. -/
theorem tenant_isolation_witness :
    list_calls sampleDBTwoTenants 1 none none none none none 20 0 =
        list_calls sampleDBProcessed 1 none none none none none 20 0 ∧
      get_report sampleDBTwoTenants 1 = get_report sampleDBProcessed 1 ∧
      (list_calls sampleDBTwoTenants 1 none none none none none 20 0).all
        (fun r => r.company_id == 1) = true :=
  tenant_isolation sampleDBTwoTenants sampleDBProcessed 1 none none none none none 20 0
    (by decide) rfl

/-- Claim C9: `top_keywords` counts each keyword occurrence across all
keyword-group value lists of all processed calls of the tenant and
returns the five most frequent keywords in descending frequency order,
ties between equal-frequency keywords broken by first-encounter order:
the counter's counts are exactly the stream's occurrence counts, the
`most_common` order is count-descending, each count class preserves the
counter's order, and the counter's keys are in first-encounter order of
the stream. -/
theorem report_top_keywords (db : DB) (cid : Nat) :
    ((get_report db cid).top_keywords =
        ((sortByCountDesc (streamCounts (keywordStream db.callinsights
            (db.callrecords.filter (fun c => c.company_id == cid && c.is_processed))))).take
          5).map Prod.fst) ∧
      (∀ k : String,
        countOf (streamCounts (keywordStream db.callinsights
            (db.callrecords.filter (fun c => c.company_id == cid && c.is_processed)))) k =
          (keywordStream db.callinsights
            (db.callrecords.filter (fun c => c.company_id == cid && c.is_processed))).count k) ∧
      (sortByCountDesc (streamCounts (keywordStream db.callinsights
          (db.callrecords.filter (fun c => c.company_id == cid && c.is_processed))))).Pairwise
        (fun a b => b.2 ≤ a.2) ∧
      (∀ n : Nat,
        (sortByCountDesc (streamCounts (keywordStream db.callinsights
            (db.callrecords.filter (fun c => c.company_id == cid && c.is_processed))))).filter
          (fun p => p.2 == n) =
          (streamCounts (keywordStream db.callinsights
            (db.callrecords.filter (fun c => c.company_id == cid && c.is_processed)))).filter
            (fun p => p.2 == n)) ∧
      (streamCounts (keywordStream db.callinsights
          (db.callrecords.filter (fun c => c.company_id == cid && c.is_processed)))).map
          Prod.fst =
        firstOccs (keywordStream db.callinsights
          (db.callrecords.filter (fun c => c.company_id == cid && c.is_processed))) :=
  ⟨rfl, fun k => countOf_streamCounts _ k, sortByCountDesc_pairwise _,
   fun n => filter_sortByCountDesc _ n, streamCounts_keys _⟩

/-- Claim C1 counterexample: the second invocation of the worker on the
already-processed record of `sampleDB` does not detect `processed=true`
and no-op — it raises: the unchecked duplicate insert hits the unique
constraint and the error is re-raised to the queue. -/
theorem process_twice_not_noop :
    (process_call_record (process_call_record sampleDB 1 .Positive 0 false).1
        1 .Positive 0 false).2 = .raised ∧
      (process_call_record (process_call_record sampleDB 1 .Positive 0 false).1
        1 .Positive 0 false).2 ≠ .ok := by
  refine ⟨?_, ?_⟩ <;> decide

/-- Claim C1 (amended): invoking the worker twice on the same id leaves
exactly one CallInsight row and `processed=true`, but not via an early
check: the worker never reads `processed`; the second invocation attempts
a duplicate insight insert which the 1:1 unique constraint aborts, the
transaction rolls back unchanged and the error is re-raised — the storage
constraint, not a check-and-no-op, enforces the final state. -/
theorem process_twice_single_insight
    (db : DB) (rid : Nat) (sent sent2 : SentimentEnum) (now now2 : Int)
    (c2 : Bool) (cr : CallRecord)
    (hfind : db.callrecords.find? (fun r => r.id == rid) = some cr)
    (hnoins : db.callinsights.countP (fun i => i.call_id == cr.id) = 0) :
    (process_call_record db rid sent now false).2 = .ok ∧
      process_call_record (process_call_record db rid sent now false).1 rid sent2 now2 c2 =
        ((process_call_record db rid sent now false).1, .raised) ∧
      (process_call_record db rid sent now false).1.callinsights.countP
        (fun i => i.call_id == cr.id) = 1 ∧
      ∀ r ∈ (process_call_record db rid sent now false).1.callrecords,
        r.id = rid → r.is_processed = true := by
  have hany : db.callinsights.any (fun i => i.call_id == cr.id) = false := by
    rw [List.any_eq_false]
    intro i hi
    exact List.countP_eq_zero.mp hnoins i hi
  have hpid : cr.id = rid := by
    have hp := List.find?_some hfind
    simpa using hp
  have h1 : process_call_record db rid sent now false =
      ({ callrecords :=
           db.callrecords.map (fun r => if r.id == rid then { r with is_processed := true } else r)
         callinsights :=
           db.callinsights ++ [simulatedInsight (db.callinsights.length + 1) cr sent now] },
       .ok) := by
    simp [process_call_record, hfind, hany]
  have hmapfind :
      (db.callrecords.map
        (fun r => if r.id == rid then { r with is_processed := true } else r)).find?
        (fun r => r.id == rid) = some { cr with is_processed := true } := by
    rw [List.find?_map]
    have hcomp : ((fun r : CallRecord => r.id == rid) ∘
        (fun r => if r.id == rid then { r with is_processed := true } else r)) =
        fun r : CallRecord => r.id == rid := by
      funext r
      by_cases h : r.id = rid <;> simp [h]
    rw [hcomp, hfind]
    simp [hpid]
  refine ⟨by rw [h1], ?_, ?_, ?_⟩
  · rw [h1]
    simp only [process_call_record, hmapfind]
    have hdup : (db.callinsights ++
        [simulatedInsight (db.callinsights.length + 1) cr sent now]).any
        (fun i => i.call_id == ({ cr with is_processed := true } : CallRecord).id) = true := by
      rw [List.any_eq_true]
      refine ⟨simulatedInsight (db.callinsights.length + 1) cr sent now, ?_, ?_⟩
      · simp
      · simp [simulatedInsight]
    rw [hdup]
    simp
  · rw [h1]
    simp only [List.countP_append, hnoins]
    simp [List.countP_cons, simulatedInsight]
  · rw [h1]
    intro r hr hid
    rcases List.mem_map.mp hr with ⟨r0, hr0, rfl⟩
    by_cases h : r0.id = rid
    · simp [h]
    · rw [if_neg (by simpa using h)] at hid
      exact absurd hid h

/-- Witness for C1's amended claim on `sampleDB`. -/
theorem process_twice_single_insight_witness :
    (process_call_record sampleDB 1 .Positive 0 false).2 = .ok ∧
      process_call_record (process_call_record sampleDB 1 .Positive 0 false).1
          1 .Negative 5 true =
        ((process_call_record sampleDB 1 .Positive 0 false).1, .raised) ∧
      (process_call_record sampleDB 1 .Positive 0 false).1.callinsights.countP
        (fun i => i.call_id == sampleRecord.id) = 1 :=
  ⟨(process_twice_single_insight sampleDB 1 .Positive .Negative 0 5 true sampleRecord
      (by decide) rfl).1,
   (process_twice_single_insight sampleDB 1 .Positive .Negative 0 5 true sampleRecord
      (by decide) rfl).2.1,
   (process_twice_single_insight sampleDB 1 .Positive .Negative 0 5 true sampleRecord
      (by decide) rfl).2.2.1⟩

end CAIP
